import Mathlib

/-!
# Verification of the `ado_mcp` Azure DevOps MCP server

Shallow embedding of `src/dist/ado.js` (REST client: `adoGet`, `adoPost`,
`adoPatch`, `makeADO`) and `src/dist/server.js` (tool dispatch:
`CallToolRequestSchema` handler), together with proofs of the spec claims
about retry behaviour, error handling, URL construction, JSON-patch
document construction and authentication.

HTTP itself is modelled by a response oracle (`Nat → HttpResponse α`,
one response per attempt); each client call is embedded as a pure function
returning a `CallTrace`: the list of HTTP requests issued, the backoff
sleeps performed (in ms), and the outcome (parsed body or thrown error
message).
-/

namespace AdoMcp

/-! ## Generic string helpers -/

/-- Leading-match test: does `sub` occur at the head of `hay`? -/
def matchesAt : List Char → List Char → Bool
  | _, [] => true
  | [], _ :: _ => false
  | h :: hs, n :: ns => h == n && matchesAt hs ns

/-- Does `sub` occur (contiguously) anywhere inside `hay`? -/
def listContainsSub (hay sub : List Char) : Bool :=
  match hay with
  | [] => sub.isEmpty
  | _ :: t => matchesAt hay sub || listContainsSub t sub

/-- Substring test on strings: `containsSub hay sub = true` iff `sub` occurs in `hay`. -/
def containsSub (hay sub : String) : Bool :=
  listContainsSub hay.toList sub.toList

theorem matchesAt_nil (hay : List Char) : matchesAt hay [] = true := by
  cases hay <;> rfl

theorem matchesAt_refl (l : List Char) : matchesAt l l = true := by
  induction l with
  | nil => rfl
  | cons h t ih => simp [matchesAt, ih]

theorem matchesAt_append (l post : List Char) : matchesAt (l ++ post) l = true := by
  induction l with
  | nil => exact matchesAt_nil post
  | cons h t ih => simp [matchesAt, ih]

theorem listContainsSub_refl (l : List Char) : listContainsSub l l = true := by
  cases l with
  | nil => rfl
  | cons h t => simp [listContainsSub, matchesAt_refl]

theorem listContainsSub_nil (hay : List Char) : listContainsSub hay [] = true := by
  induction hay with
  | nil => rfl
  | cons h t ih => simp [listContainsSub, ih]

theorem listContainsSub_append_left (l post : List Char) :
    listContainsSub (l ++ post) l = true := by
  cases l with
  | nil => exact listContainsSub_nil post
  | cons h t =>
    have hm := matchesAt_append (h :: t) post
    simp [listContainsSub, List.cons_append] at hm ⊢
    exact Or.inl hm

theorem listContainsSub_cons (c : Char) (hay sub : List Char)
    (h : listContainsSub hay sub = true) :
    listContainsSub (c :: hay) sub = true := by
  simp [listContainsSub, h]

theorem listContainsSub_append_right (pre l : List Char) :
    listContainsSub (pre ++ l) l = true := by
  induction pre with
  | nil => simpa using listContainsSub_refl l
  | cons c t ih => exact listContainsSub_cons c _ _ ih

/-! ## UTF-8, percent-encoding (`encodeURIComponent`), form-url-encoding, base64 -/

/-- UTF-8 encoding of a Unicode code point, as a list of byte values. -/
def utf8Bytes (n : Nat) : List Nat :=
  if n < 0x80 then [n]
  else if n < 0x800 then [0xC0 + n / 64, 0x80 + n % 64]
  else if n < 0x10000 then [0xE0 + n / 4096, 0x80 + (n / 64) % 64, 0x80 + n % 64]
  else [0xF0 + n / 262144, 0x80 + (n / 4096) % 64, 0x80 + (n / 64) % 64, 0x80 + n % 64]

/-- UTF-8 bytes of a whole string. -/
def strBytes (s : String) : List Nat :=
  s.toList.flatMap (fun c => utf8Bytes c.toNat)

/-- Upper-case hexadecimal digit for `n < 16`. -/
def hexDigit (n : Nat) : Char :=
  if n < 10 then Char.ofNat (48 + n) else Char.ofNat (55 + n)

/-- `%XX` percent-escape of one byte. -/
def pctByte (b : Nat) : List Char :=
  [Char.ofNat 37, hexDigit (b / 16), hexDigit (b % 16)]

/-- Characters `encodeURIComponent` leaves unescaped: `A–Z a–z 0–9 - _ . ! ~ * ' ( )`. -/
def isUnreservedURI (c : Char) : Bool :=
  c.isAlphanum || c ∈ ['-', '_', '.', '!', '~', '*', Char.ofNat 39, '(', ')']

/-- Output of `encodeURIComponent` for a single character. -/
def encChunk (c : Char) : List Char :=
  if isUnreservedURI c then [c] else (utf8Bytes c.toNat).flatMap pctByte

/-- JavaScript `encodeURIComponent`. -/
def encodeURIComponent (s : String) : String :=
  String.mk (s.toList.flatMap encChunk)

/-- Characters the `application/x-www-form-urlencoded` serializer leaves
unescaped (`URLSearchParams.toString`): `A–Z a–z 0–9 * - . _`. -/
def isUnreservedForm (c : Char) : Bool :=
  c.isAlphanum || c ∈ ['*', '-', '.', '_']

/-- `application/x-www-form-urlencoded` escape of one character. -/
def formChunk (c : Char) : List Char :=
  if isUnreservedForm c then [c]
  else if c = ' ' then ['+']
  else (utf8Bytes c.toNat).flatMap pctByte

/-- Escape applied to keys and values by `URLSearchParams.toString`. -/
def formEncode (s : String) : String :=
  String.mk (s.toList.flatMap formChunk)

/-- `URLSearchParams.toString`: serialize `k=v` pairs joined by `&`. -/
def serializeQuery (q : List (String × String)) : String :=
  String.intercalate "&" (q.map (fun kv => formEncode kv.1 ++ "=" ++ formEncode kv.2))

/-- The base64 alphabet (RFC 4648), as a function from a 6-bit value to its digit. -/
def b64digit (n : Nat) : Char :=
  if n < 26 then Char.ofNat (65 + n)
  else if n < 52 then Char.ofNat (97 + (n - 26))
  else if n < 62 then Char.ofNat (48 + (n - 52))
  else if n = 62 then '+' else '/'

/-- Standard base64 encoding of a byte list, with `=` padding
(`Buffer.from(...).toString("base64")`). -/
def base64Encode : List Nat → String
  | [] => ""
  | [b1] =>
    String.mk [b64digit (b1 / 4), b64digit (b1 % 4 * 16), '=', '=']
  | [b1, b2] =>
    String.mk [b64digit (b1 / 4), b64digit (b1 % 4 * 16 + b2 / 16), b64digit (b2 % 16 * 4), '=']
  | b1 :: b2 :: b3 :: rest =>
    String.mk [b64digit (b1 / 4), b64digit (b1 % 4 * 16 + b2 / 16),
               b64digit (b2 % 16 * 4 + b3 / 64), b64digit (b3 % 64)]
      ++ base64Encode rest

/-- JavaScript `s.replace(/\/$/, "")`: drop one trailing `/` if present. -/
def stripTrailingSlash (s : String) : String :=
  match s.toList.getLast? with
  | some c => if c = '/' then String.mk s.toList.dropLast else s
  | none => s

/-! ## HTTP layer (`src/dist/ado.js` lines 1–47)

A call is given a response oracle (`responses i` is the server's answer to
the `i`-th attempt) and returns the trace of requests issued, backoff
sleeps performed and the final outcome. -/

/-- One JSON-patch operation, as constructed by `src/dist/server.js`
(all values there are strings). -/
structure PatchOp where
  op : String
  path : String
  value : String
deriving DecidableEq, Repr

/-- The request bodies this client ever constructs. -/
inductive Body where
  | patch (ops : List PatchOp)
  | wiqlQuery (query : String)
  | workItemsBatch (ids : List Nat) (fields : Option (List String))
  | comment (text : String)
deriving DecidableEq, Repr

/-- `authHeader` (`ado.js` line 5):
`"Basic " + Buffer.from(":" + pat).toString("base64")`. -/
def authHeader (pat : String) : String :=
  "Basic " ++ base64Encode (strBytes (":" ++ pat))

/-- An HTTP request as issued through `undici`'s `request`. -/
structure HttpRequest where
  method : String
  url : String
  authorization : String
  contentType : Option String
  body : Option Body
deriving DecidableEq, Repr

/-- An HTTP response: status code and (already JSON-parsed) body. -/
structure HttpResponse (α : Type) where
  statusCode : Nat
  body : α
deriving DecidableEq, Repr

/-- Trace of one client call: requests issued, backoff sleeps (ms, in
order), and parsed body or thrown error message. -/
structure CallTrace (α : Type) where
  requests : List HttpRequest
  sleeps : List Nat
  outcome : Except String α
deriving Repr

/-- The request `adoGet` issues on each attempt. -/
def getRequest (url pat : String) : HttpRequest :=
  { method := "GET", url := url, authorization := authHeader pat,
    contentType := none, body := none }

variable {α : Type}

/-- The body of `adoGet`'s `for (let i = 0; i < 3; i++)` loop
(`ado.js` lines 7–19), recursing over the remaining attempt indices;
the `[]` case is the `throw` after the loop (line 20). -/
def adoGetLoop (url pat : String) (responses : Nat → HttpResponse α) :
    List Nat → CallTrace α
  | [] => ⟨[], [], .error ("Retries exceeded: GET " ++ url)⟩
  | i :: rest =>
    let res := responses i
    if 200 ≤ res.statusCode ∧ res.statusCode < 300 then
      ⟨[getRequest url pat], [], .ok res.body⟩
    else if res.statusCode = 429 ∨ 500 ≤ res.statusCode then
      let t := adoGetLoop url pat responses rest
      ⟨getRequest url pat :: t.requests, 250 * (i + 1) :: t.sleeps, t.outcome⟩
    else
      ⟨[getRequest url pat], [], .error (toString res.statusCode ++ " GET " ++ url)⟩

/-- `adoGet` (`ado.js` lines 6–21). -/
def adoGet (url pat : String) (responses : Nat → HttpResponse α) : CallTrace α :=
  adoGetLoop url pat responses (List.range 3)

/-- `adoPost` (`ado.js` lines 22–34); `contentType` defaults to
`"application/json"` at its call sites. -/
def adoPost (url pat : String) (body : Body) (contentType : String)
    (res : HttpResponse α) : CallTrace α :=
  let req : HttpRequest :=
    { method := "POST", url := url, authorization := authHeader pat,
      contentType := some contentType, body := some body }
  if res.statusCode < 200 ∨ 300 ≤ res.statusCode then
    ⟨[req], [], .error (toString res.statusCode ++ " POST " ++ url)⟩
  else
    ⟨[req], [], .ok res.body⟩

/-- `adoPatch` (`ado.js` lines 35–47); `contentType` defaults to
`"application/json-patch+json"` at its call sites. -/
def adoPatch (url pat : String) (body : Body) (contentType : String)
    (res : HttpResponse α) : CallTrace α :=
  let req : HttpRequest :=
    { method := "PATCH", url := url, authorization := authHeader pat,
      contentType := some contentType, body := some body }
  if res.statusCode < 200 ∨ 300 ≤ res.statusCode then
    ⟨[req], [], .error (toString res.statusCode ++ " PATCH " ++ url)⟩
  else
    ⟨[req], [], .ok res.body⟩

/-! ## REST client (`makeADO`, `ado.js` lines 48–119)

Each operation is embedded as the description of the single REST call it
performs: method, URL, body and content type. -/

/-- JavaScript truthiness of an optional string: defined and non-empty. -/
def truthyStr : Option String → Bool
  | none => false
  | some s => !(s == "")

/-- JavaScript truthiness of an optional number: defined and non-zero. -/
def truthyNat : Option Nat → Bool
  | none => false
  | some n => !(n == 0)

/-- Truthiness of `opts.definitions?.length`: defined and non-empty. -/
def truthyListNat : Option (List Nat) → Bool
  | none => false
  | some l => !(l.length == 0)

/-- Argument record of `makeADO` (`ado.js` line 48). -/
structure ADOOpts where
  org : String
  project : Option String
  pat : String

/-- `baseUrl` (`ado.js` line 4). -/
def baseUrl (org : String) : String :=
  "https://" ++ encodeURIComponent org ++ ".visualstudio.com"

/-- `orgBase` (`ado.js` line 49):
``` `${baseUrl(org)}/${project ? encodeURIComponent(project) : ""}`.replace(/\/$/, "") ```. -/
def orgBase (o : ADOOpts) : String :=
  stripTrailingSlash (baseUrl o.org ++ "/" ++
    (match o.project with
     | some p => if p == "" then "" else encodeURIComponent p
     | none => ""))

/-- HTTP method of a REST call. -/
inductive Method where
  | GET
  | POST
  | PATCH
deriving DecidableEq, Repr

/-- Description of one REST call: the endpoint and payload a `makeADO`
operation hands to `adoGet` / `adoPost` / `adoPatch`. -/
structure RestCall where
  method : Method
  url : String
  body : Option Body
  contentType : Option String
deriving DecidableEq, Repr

/-- `listProjects` (`ado.js` lines 52–55). -/
def listProjects (o : ADOOpts) : RestCall :=
  ⟨.GET, baseUrl o.org ++ "/_apis/projects?api-version=6.0", none, none⟩

/-- `listPipelines` (`ado.js` lines 57–60). -/
def listPipelines (o : ADOOpts) : RestCall :=
  ⟨.GET, orgBase o ++ "/_apis/pipelines?api-version=6.0-preview.1", none, none⟩

/-- Options accepted by `listBuilds` (`ado.js` line 61). -/
structure ListBuildsOpts where
  definitions : Option (List Nat)
  branchName : Option String
  top : Option Nat
  continuationToken : Option String

/-- The `URLSearchParams` built by `listBuilds` (`ado.js` lines 62–70),
as an insertion-ordered key/value list. -/
def buildsQuery (opts : ListBuildsOpts) : List (String × String) :=
  [("api-version", "6.0")]
  ++ (if truthyNat opts.top then [("$top", toString (opts.top.getD 0))] else [])
  ++ (if truthyStr opts.branchName then [("branchName", opts.branchName.getD "")] else [])
  ++ (if truthyListNat opts.definitions then
        [("definitions", String.intercalate "," ((opts.definitions.getD []).map toString))]
      else [])
  ++ (if truthyStr opts.continuationToken then
        [("continuationToken", opts.continuationToken.getD "")]
      else [])

/-- `listBuilds` (`ado.js` lines 61–73). -/
def listBuilds (o : ADOOpts) (opts : ListBuildsOpts) : RestCall :=
  ⟨.GET, orgBase o ++ "/_apis/build/builds?" ++ serializeQuery (buildsQuery opts),
   none, none⟩

/-- `wiqlTeam` (`ado.js` lines 75–78). -/
def wiqlTeam (o : ADOOpts) (team wiql : String) : RestCall :=
  ⟨.POST, orgBase o ++ "/" ++ encodeURIComponent team ++ "/_apis/wit/wiql?api-version=6.0",
   some (.wiqlQuery wiql), some "application/json"⟩

/-- `getWorkItem` (`ado.js` lines 79–82). -/
def getWorkItem (o : ADOOpts) (id : Nat) : RestCall :=
  ⟨.GET, orgBase o ++ "/_apis/wit/workitems/" ++ toString id ++ "?api-version=6.0",
   none, none⟩

/-- `getWorkItems` (`ado.js` lines 83–86). -/
def getWorkItems (o : ADOOpts) (ids : List Nat) (fields : Option (List String)) : RestCall :=
  ⟨.POST, orgBase o ++ "/_apis/wit/workitemsbatch?api-version=6.0",
   some (.workItemsBatch ids fields), some "application/json"⟩

/-- `createWorkItem` (`ado.js` lines 87–90); note the literal `$` before
the encoded work-item type. -/
def createWorkItem (o : ADOOpts) (ty : String) (ops : List PatchOp) : RestCall :=
  ⟨.PATCH,
   orgBase o ++ "/_apis/wit/workitems/$" ++ encodeURIComponent ty ++ "?api-version=6.0",
   some (.patch ops), some "application/json-patch+json"⟩

/-- `updateWorkItem` (`ado.js` lines 91–94). -/
def updateWorkItem (o : ADOOpts) (id : Nat) (ops : List PatchOp) : RestCall :=
  ⟨.PATCH, orgBase o ++ "/_apis/wit/workitems/" ++ toString id ++ "?api-version=6.0",
   some (.patch ops), some "application/json-patch+json"⟩

/-- `addComment` (`ado.js` lines 95–98). -/
def addComment (o : ADOOpts) (id : Nat) (text : String) : RestCall :=
  ⟨.POST,
   orgBase o ++ "/_apis/wit/workItems/" ++ toString id ++ "/comments?api-version=6.0-preview.4",
   some (.comment text), some "application/json"⟩

/-- `listBoardColumns` (`ado.js` lines 100–105). -/
def listBoardColumns (o : ADOOpts) (team : Option String) : RestCall :=
  ⟨.GET,
   if truthyStr team then
     orgBase o ++ "/" ++ encodeURIComponent (team.getD "") ++ "/_apis/work/boardcolumns?api-version=6.0"
   else
     orgBase o ++ "/_apis/work/boardcolumns?api-version=6.0",
   none, none⟩

/-- The `URLSearchParams` built by `listTeamIterations` (`ado.js` lines 108–110). -/
def iterationsQuery (timeframe : Option String) : List (String × String) :=
  [("api-version", "6.0")]
  ++ (if truthyStr timeframe then [("$timeframe", timeframe.getD "")] else [])

/-- `listTeamIterations` (`ado.js` lines 107–113). -/
def listTeamIterations (o : ADOOpts) (team : String) (timeframe : Option String) : RestCall :=
  ⟨.GET,
   orgBase o ++ "/" ++ encodeURIComponent team ++ "/_apis/work/teamsettings/iterations?"
     ++ serializeQuery (iterationsQuery timeframe),
   none, none⟩

/-- `getIterationWorkItems` (`ado.js` lines 114–117); `iterationId` is
interpolated without encoding, as in the source. -/
def getIterationWorkItems (o : ADOOpts) (team iterationId : String) : RestCall :=
  ⟨.GET,
   orgBase o ++ "/" ++ encodeURIComponent team ++ "/_apis/work/teamsettings/iterations/"
     ++ iterationId ++ "/workitems?api-version=6.0",
   none, none⟩

/-! ## Tool dispatch (`src/dist/server.js` lines 163–275) -/

/-- JSON-patch document built by `case "work_item_create"`
(`server.js` lines 200–211): `System.Title` first, then the optional
fields in push order. -/
def createOps (title : String) (description iterationPath areaPath : Option String) :
    List PatchOp :=
  [⟨"add", "/fields/System.Title", title⟩]
  ++ (if truthyStr description then
        [⟨"add", "/fields/System.Description", description.getD ""⟩] else [])
  ++ (if truthyStr iterationPath then
        [⟨"add", "/fields/System.IterationPath", iterationPath.getD ""⟩] else [])
  ++ (if truthyStr areaPath then
        [⟨"add", "/fields/System.AreaPath", areaPath.getD ""⟩] else [])

/-- JSON-patch document built by `case "work_item_update"`
(`server.js` lines 217–228); `parsed.fields` is an object, so the loop
runs whenever it is present, even when empty. -/
def updateOps (state iterationPath : Option String)
    (fields : Option (List (String × String))) : List PatchOp :=
  (if truthyStr state then [⟨"add", "/fields/System.State", state.getD ""⟩] else [])
  ++ (if truthyStr iterationPath then
        [⟨"add", "/fields/System.IterationPath", iterationPath.getD ""⟩] else [])
  ++ (match fields with
      | some fs => fs.map (fun fv => ⟨"add", "/fields/" ++ fv.1, fv.2⟩)
      | none => [])

/-- JSON-patch document built by `case "board_move"`
(`server.js` lines 255–261). -/
def boardMoveOps (stateName iterationPath : Option String) : List PatchOp :=
  (if truthyStr stateName then [⟨"add", "/fields/System.State", stateName.getD ""⟩] else [])
  ++ (if truthyStr iterationPath then
        [⟨"add", "/fields/System.IterationPath", iterationPath.getD ""⟩] else [])

/-- A tool invocation with already-validated (zod-parsed) arguments:
one constructor per defined tool. -/
inductive ToolCall where
  | list_projects
  | list_pipelines
  | list_builds (opts : ListBuildsOpts)
  | wiql_query_team (team wiql : String)
  | work_item_get (id : Nat)
  | work_items_get (ids : List Nat) (fields : Option (List String))
  | work_item_create (ty title : String) (description iterationPath areaPath : Option String)
  | work_item_update (id : Nat) (state iterationPath : Option String)
      (fields : Option (List (String × String)))
  | work_item_comment_add (id : Nat) (text : String)
  | boards_list_columns (team : Option String)
  | iterations_list (team : String) (timeframe : Option String)
  | iteration_work_items (team : String) (iterationId : String)
  | board_move (id : Nat) (stateName iterationPath : Option String)

/-- The REST calls issued by one tool invocation: the `switch` in the
`CallToolRequestSchema` handler (`server.js` lines 166–264), each case
awaiting exactly the one `ado.*` operation shown in the source. -/
def dispatchCalls (o : ADOOpts) : ToolCall → List RestCall
  | .list_projects => [listProjects o]
  | .list_pipelines => [listPipelines o]
  | .list_builds opts => [listBuilds o opts]
  | .wiql_query_team team wiql => [wiqlTeam o team wiql]
  | .work_item_get id => [getWorkItem o id]
  | .work_items_get ids fields => [getWorkItems o ids fields]
  | .work_item_create ty title d ip ap => [createWorkItem o ty (createOps title d ip ap)]
  | .work_item_update id st ip fs => [updateWorkItem o id (updateOps st ip fs)]
  | .work_item_comment_add id text => [addComment o id text]
  | .boards_list_columns team => [listBoardColumns o team]
  | .iterations_list team tf => [listTeamIterations o team tf]
  | .iteration_work_items team iid => [getIterationWorkItems o team iid]
  | .board_move id st ip => [updateWorkItem o id (boardMoveOps st ip)]

/-! ## Error boundary of the `CallToolRequestSchema` handler
(`server.js` lines 163–275) -/

/-- One zod validation issue: field path and message. -/
structure ZodIssue where
  path : List String
  message : String
deriving DecidableEq, Repr

/-- An exception escaping the `try` block of the handler: a zod
validation error, a plain `Error` (e.g. from the HTTP layer), or an
`McpError` (thrown by the `default` branch). -/
inductive ThrownError where
  | zod (issues : List ZodIssue)
  | err (msg : String)
  | mcp (code : Int) (msg : String)
deriving DecidableEq, Repr

namespace ErrorCode

/-- `ErrorCode.MethodNotFound` of the MCP SDK. -/
def MethodNotFound : Int := -32601

/-- `ErrorCode.InvalidParams` of the MCP SDK. -/
def InvalidParams : Int := -32602

/-- `ErrorCode.InternalError` of the MCP SDK. -/
def InternalError : Int := -32603

end ErrorCode

/-- `McpError` as surfaced to the caller: protocol error code plus message. -/
structure McpError where
  code : Int
  message : String
deriving DecidableEq, Repr

/-- JavaScript string interpolation `${error}` for each kind of thrown
error. A plain `Error` prints `Error: <message>`; an `McpError` prints
its `name` (`"McpError"`) and its constructor-built message
`MCP error <code>: <message>`. The `zod` case is never stringified by the
handler (its `catch` treats `ZodError` first), so only its name matters. -/
def errorToString : ThrownError → String
  | .zod _ => "ZodError"
  | .err m => "Error: " ++ m
  | .mcp c m => "McpError: MCP error " ++ toString c ++ ": " ++ m

/-- `error.errors.map(e => path.join('.') + ': ' + e.message).join(', ')`
(`server.js` line 271). -/
def renderIssues (issues : List ZodIssue) : String :=
  String.intercalate ", "
    (issues.map (fun e => String.intercalate "." e.path ++ ": " ++ e.message))

/-- The names of the 13 tools the `switch` recognizes. -/
def knownTools : List String :=
  ["list_projects", "list_pipelines", "list_builds", "wiql_query_team",
   "work_item_get", "work_items_get", "work_item_create", "work_item_update",
   "work_item_comment_add", "boards_list_columns", "iterations_list",
   "iteration_work_items", "board_move"]

/-- The `try` block: a known tool name runs its case (whose parse/HTTP
outcome is `exec`); an unknown name hits the `default` branch and throws
`McpError(MethodNotFound, "Unknown tool: " + name)` (`server.js` line 266). -/
def tryBody (name : String) (exec : Except ThrownError String) :
    Except ThrownError String :=
  if name ∈ knownTools then exec
  else .error (.mcp ErrorCode.MethodNotFound ("Unknown tool: " ++ name))

/-- The `catch` block (`server.js` lines 269–274): a `ZodError` becomes
`McpError(InvalidParams, "Invalid arguments: " + ...)`; every other
exception becomes `McpError(InternalError, "Tool execution failed: " + error)`. -/
def catchWrap (r : Except ThrownError String) : Except McpError String :=
  match r with
  | .ok a => .ok a
  | .error (.zod issues) =>
    .error ⟨ErrorCode.InvalidParams, "Invalid arguments: " ++ renderIssues issues⟩
  | .error e =>
    .error ⟨ErrorCode.InternalError, "Tool execution failed: " ++ errorToString e⟩

/-- The whole `CallToolRequestSchema` handler: `try` body wrapped by `catch`. -/
def handleCall (name : String) (exec : Except ThrownError String) :
    Except McpError String :=
  catchWrap (tryBody name exec)

/-! ## Facts about `encodeURIComponent` and `stripTrailingSlash`
(used to simplify `orgBase`) -/

theorem char_toNat_lt (c : Char) : c.toNat < 1114112 := by
  have h := c.valid
  simp only [Char.toNat]
  rcases h with h | ⟨h1, h2⟩ <;> omega

theorem hexDigit_ne_slash (m : Nat) (h : m < 16) : hexDigit m ≠ '/' := by
  interval_cases m <;> decide

theorem mem_utf8Bytes_lt (n : Nat) (hn : n < 1114112) (x : Nat)
    (hx : x ∈ utf8Bytes n) : x < 256 := by
  unfold utf8Bytes at hx
  split_ifs at hx <;> simp at hx <;> omega

theorem mem_pctByte_ne_slash (b : Nat) (hb : b < 256) (x : Char)
    (hx : x ∈ pctByte b) : x ≠ '/' := by
  simp [pctByte] at hx
  rcases hx with h | h | h
  · subst h; decide
  · subst h; exact hexDigit_ne_slash _ (by omega)
  · subst h; exact hexDigit_ne_slash _ (Nat.mod_lt _ (by norm_num))

theorem mem_encChunk_ne_slash (c x : Char) (hx : x ∈ encChunk c) : x ≠ '/' := by
  unfold encChunk at hx
  split_ifs at hx with h
  · simp at hx
    subst hx
    intro he
    subst he
    simp [isUnreservedURI] at h
  · simp only [List.mem_flatMap] at hx
    obtain ⟨b, hb, hxb⟩ := hx
    exact mem_pctByte_ne_slash b (mem_utf8Bytes_lt _ (char_toNat_lt c) b hb) x hxb

theorem encChunk_ne_nil (c : Char) : encChunk c ≠ [] := by
  unfold encChunk
  split_ifs with h
  · simp
  · unfold utf8Bytes
    split_ifs <;> simp [pctByte]

theorem encodeURIComponent_toList (s : String) :
    (encodeURIComponent s).toList = s.toList.flatMap encChunk := rfl

theorem mem_encodeURIComponent_ne_slash (s : String) (x : Char)
    (hx : x ∈ (encodeURIComponent s).toList) : x ≠ '/' := by
  rw [encodeURIComponent_toList, List.mem_flatMap] at hx
  obtain ⟨c, _, hxc⟩ := hx
  exact mem_encChunk_ne_slash c x hxc

theorem encodeURIComponent_toList_ne_nil (s : String) (hs : s.toList ≠ []) :
    (encodeURIComponent s).toList ≠ [] := by
  rw [encodeURIComponent_toList]
  cases h : s.toList with
  | nil => exact absurd h hs
  | cons c t =>
    simp only [List.flatMap_cons]
    intro hnil
    exact encChunk_ne_nil c (List.append_eq_nil.mp hnil).1

theorem stripTrailingSlash_append_slash (t : String) :
    stripTrailingSlash (t ++ "/") = t := by
  unfold stripTrailingSlash
  have h1 : (t ++ "/").toList = t.toList ++ ['/'] := rfl
  rw [h1, List.getLast?_concat]
  show (if ('/' : Char) = '/' then String.mk ((t.toList ++ ['/']).dropLast) else t ++ "/") = t
  rw [if_pos rfl, List.dropLast_concat]
  rfl

theorem stripTrailingSlash_of_no_slash_end (s : String)
    (h : ∀ c, s.toList.getLast? = some c → c ≠ '/') :
    stripTrailingSlash s = s := by
  unfold stripTrailingSlash
  cases hl : s.toList.getLast? with
  | none => rfl
  | some c => simp [h c hl]

theorem toList_ne_nil_of_ne_empty (s : String) (h : s ≠ "") : s.toList ≠ [] := by
  intro hl
  apply h
  calc s = String.mk s.toList := rfl
    _ = String.mk [] := by rw [hl]
    _ = "" := rfl

/-- `orgBase` when no project is configured. -/
theorem orgBase_none (o : ADOOpts) (h : o.project = none) :
    orgBase o = baseUrl o.org := by
  unfold orgBase
  rw [h]
  show stripTrailingSlash (baseUrl o.org ++ "/" ++ "") = baseUrl o.org
  rw [String.append_empty, stripTrailingSlash_append_slash]

/-- `orgBase` when the configured project name is the empty string
(falsy in JavaScript). -/
theorem orgBase_empty (o : ADOOpts) (h : o.project = some "") :
    orgBase o = baseUrl o.org := by
  unfold orgBase
  rw [h]
  show stripTrailingSlash (baseUrl o.org ++ "/" ++ "") = baseUrl o.org
  rw [String.append_empty, stripTrailingSlash_append_slash]

/-- `orgBase` when a non-empty project name is configured: the trailing
`replace(/\/$/, "")` never fires, since `encodeURIComponent` output
contains no `/`. -/
theorem orgBase_some (o : ADOOpts) (p : String) (h : o.project = some p)
    (hp : p ≠ "") :
    orgBase o = baseUrl o.org ++ "/" ++ encodeURIComponent p := by
  unfold orgBase
  rw [h]
  show stripTrailingSlash (baseUrl o.org ++ "/" ++
      (if (p == "") = true then "" else encodeURIComponent p))
    = baseUrl o.org ++ "/" ++ encodeURIComponent p
  have hb : (p == "") = false := by simpa using hp
  rw [hb]
  show stripTrailingSlash (baseUrl o.org ++ "/" ++ encodeURIComponent p)
    = baseUrl o.org ++ "/" ++ encodeURIComponent p
  apply stripTrailingSlash_of_no_slash_end
  intro c hc
  have htl : (baseUrl o.org ++ "/" ++ encodeURIComponent p).toList
      = (baseUrl o.org ++ "/").toList ++ (encodeURIComponent p).toList := rfl
  rw [htl, List.getLast?_append] at hc
  have hne : (encodeURIComponent p).toList ≠ [] :=
    encodeURIComponent_toList_ne_nil p (toList_ne_nil_of_ne_empty p hp)
  obtain ⟨c', hc'⟩ := Option.isSome_iff_exists.mp (List.getLast?_isSome.mpr hne)
  rw [hc'] at hc
  have hcc : (some c' : Option Char) = some c := hc
  cases hcc
  obtain ⟨ys, hys⟩ := List.getLast?_eq_some_iff.mp hc'
  exact mem_encodeURIComponent_ne_slash p c (hys ▸ List.mem_append_right ys (by simp))

/-! ## Behaviour of the `adoGet` retry loop -/

theorem adoGetLoop_cons_2xx {α : Type} (url pat : String)
    (responses : Nat → HttpResponse α) (i : Nat) (rest : List Nat)
    (h : 200 ≤ (responses i).statusCode ∧ (responses i).statusCode < 300) :
    adoGetLoop url pat responses (i :: rest)
      = ⟨[getRequest url pat], [], .ok (responses i).body⟩ := by
  simp only [adoGetLoop]
  rw [if_pos h]

theorem adoGetLoop_cons_retry {α : Type} (url pat : String)
    (responses : Nat → HttpResponse α) (i : Nat) (rest : List Nat)
    (h2 : ¬(200 ≤ (responses i).statusCode ∧ (responses i).statusCode < 300))
    (hr : (responses i).statusCode = 429 ∨ 500 ≤ (responses i).statusCode) :
    adoGetLoop url pat responses (i :: rest)
      = ⟨getRequest url pat :: (adoGetLoop url pat responses rest).requests,
         250 * (i + 1) :: (adoGetLoop url pat responses rest).sleeps,
         (adoGetLoop url pat responses rest).outcome⟩ := by
  simp only [adoGetLoop]
  rw [if_neg h2, if_pos hr]

theorem adoGetLoop_cons_fail {α : Type} (url pat : String)
    (responses : Nat → HttpResponse α) (i : Nat) (rest : List Nat)
    (h2 : ¬(200 ≤ (responses i).statusCode ∧ (responses i).statusCode < 300))
    (hr : ¬((responses i).statusCode = 429 ∨ 500 ≤ (responses i).statusCode)) :
    adoGetLoop url pat responses (i :: rest)
      = ⟨[getRequest url pat], [],
         .error (toString (responses i).statusCode ++ " GET " ++ url)⟩ := by
  simp only [adoGetLoop]
  rw [if_neg h2, if_neg hr]

/-- **C1**: for every GET issued by `adoGet`, a status in `[200, 300)`
returns the parsed body; on status 429 or ≥ 500 the GET is retried, up to
3 attempts in total, sleeping `250ms × (attempt number)` after each such
failure, and the call fails with an error once the attempts are
exhausted; any other non-2xx status fails the call immediately with no
further request. The trace records the exact requests, sleeps and
outcome in each of the three situations. -/
theorem adoGet_retry_policy {α : Type} (url pat : String)
    (responses : Nat → HttpResponse α) :
    (∀ k, k < 3 →
      (∀ i, i < k → (responses i).statusCode = 429 ∨ 500 ≤ (responses i).statusCode) →
      (200 ≤ (responses k).statusCode ∧ (responses k).statusCode < 300) →
      adoGet url pat responses =
        ⟨List.replicate (k + 1) (getRequest url pat),
         (List.range k).map (fun i => 250 * (i + 1)),
         .ok (responses k).body⟩) ∧
    (∀ k, k < 3 →
      (∀ i, i < k → (responses i).statusCode = 429 ∨ 500 ≤ (responses i).statusCode) →
      ¬(200 ≤ (responses k).statusCode ∧ (responses k).statusCode < 300) →
      ¬((responses k).statusCode = 429 ∨ 500 ≤ (responses k).statusCode) →
      adoGet url pat responses =
        ⟨List.replicate (k + 1) (getRequest url pat),
         (List.range k).map (fun i => 250 * (i + 1)),
         .error (toString (responses k).statusCode ++ " GET " ++ url)⟩) ∧
    ((∀ i, i < 3 → (responses i).statusCode = 429 ∨ 500 ≤ (responses i).statusCode) →
      adoGet url pat responses =
        ⟨List.replicate 3 (getRequest url pat), [250, 500, 750],
         .error ("Retries exceeded: GET " ++ url)⟩) := by
  have not2xx : ∀ i, ((responses i).statusCode = 429 ∨ 500 ≤ (responses i).statusCode) →
      ¬(200 ≤ (responses i).statusCode ∧ (responses i).statusCode < 300) := by
    intro i hi
    rcases hi with hi | hi <;> omega
  refine ⟨?_, ?_, ?_⟩
  · intro k hk hretry h2
    interval_cases k
    · show adoGetLoop url pat responses [0, 1, 2] = _
      rw [adoGetLoop_cons_2xx url pat responses 0 _ h2]
      rfl
    · have h0 := hretry 0 (by omega)
      show adoGetLoop url pat responses [0, 1, 2] = _
      rw [adoGetLoop_cons_retry url pat responses 0 _ (not2xx 0 h0) h0,
        adoGetLoop_cons_2xx url pat responses 1 _ h2]
      rfl
    · have h0 := hretry 0 (by omega)
      have h1 := hretry 1 (by omega)
      show adoGetLoop url pat responses [0, 1, 2] = _
      rw [adoGetLoop_cons_retry url pat responses 0 _ (not2xx 0 h0) h0,
        adoGetLoop_cons_retry url pat responses 1 _ (not2xx 1 h1) h1,
        adoGetLoop_cons_2xx url pat responses 2 _ h2]
      rfl
  · intro k hk hretry h2 hr
    interval_cases k
    · show adoGetLoop url pat responses [0, 1, 2] = _
      rw [adoGetLoop_cons_fail url pat responses 0 _ h2 hr]
      rfl
    · have h0 := hretry 0 (by omega)
      show adoGetLoop url pat responses [0, 1, 2] = _
      rw [adoGetLoop_cons_retry url pat responses 0 _ (not2xx 0 h0) h0,
        adoGetLoop_cons_fail url pat responses 1 _ h2 hr]
      rfl
    · have h0 := hretry 0 (by omega)
      have h1 := hretry 1 (by omega)
      show adoGetLoop url pat responses [0, 1, 2] = _
      rw [adoGetLoop_cons_retry url pat responses 0 _ (not2xx 0 h0) h0,
        adoGetLoop_cons_retry url pat responses 1 _ (not2xx 1 h1) h1,
        adoGetLoop_cons_fail url pat responses 2 _ h2 hr]
      rfl
  · intro hretry
    have h0 := hretry 0 (by omega)
    have h1 := hretry 1 (by omega)
    have h2 := hretry 2 (by omega)
    show adoGetLoop url pat responses [0, 1, 2] = _
    rw [adoGetLoop_cons_retry url pat responses 0 _ (not2xx 0 h0) h0,
      adoGetLoop_cons_retry url pat responses 1 _ (not2xx 1 h1) h1,
      adoGetLoop_cons_retry url pat responses 2 _ (not2xx 2 h2) h2]
    rfl

/-- Witness for `adoGet_retry_policy`: a concrete run whose first attempt
gets 503 and whose second gets 200 succeeds after one 250ms backoff. -/
theorem adoGet_retry_policy_witness :
    adoGet "u" "p" (fun i => if i = 0 then ⟨503, (7 : Nat)⟩ else ⟨200, 7⟩) =
      ⟨List.replicate 2 (getRequest "u" "p"), [250], .ok 7⟩ := by
  have h := (adoGet_retry_policy "u" "p"
    (fun i => if i = 0 then ⟨503, (7 : Nat)⟩ else ⟨200, 7⟩)).1 1 (by omega)
    (by intro i hi; have h0 : i = 0 := by omega
        subst h0; simp) (by simp)
  simpa using h

/-- **C2**: every POST and every PATCH performs exactly one HTTP request
(no retry, no backoff sleep); a status in `[200, 300)` returns the parsed
body and any other status throws immediately. -/
theorem post_patch_single_request {α : Type} (url pat : String) (b : Body)
    (ct : String) (res : HttpResponse α) :
    ((adoPost url pat b ct res).requests =
        [⟨"POST", url, authHeader pat, some ct, some b⟩] ∧
      (adoPost url pat b ct res).sleeps = [] ∧
      (adoPost url pat b ct res).outcome =
        (if 200 ≤ res.statusCode ∧ res.statusCode < 300 then .ok res.body
         else .error (toString res.statusCode ++ " POST " ++ url))) ∧
    ((adoPatch url pat b ct res).requests =
        [⟨"PATCH", url, authHeader pat, some ct, some b⟩] ∧
      (adoPatch url pat b ct res).sleeps = [] ∧
      (adoPatch url pat b ct res).outcome =
        (if 200 ≤ res.statusCode ∧ res.statusCode < 300 then .ok res.body
         else .error (toString res.statusCode ++ " PATCH " ++ url))) := by
  by_cases h : res.statusCode < 200 ∨ 300 ≤ res.statusCode
  · have h2 : ¬(200 ≤ res.statusCode ∧ res.statusCode < 300) := by omega
    simp [adoPost, adoPatch, h, h2]
  · have h2 : 200 ≤ res.statusCode ∧ res.statusCode < 300 := by omega
    simp [adoPost, adoPatch, h, h2]

theorem containsSub_append_left (a b : String) : containsSub (a ++ b) a = true := by
  unfold containsSub
  have h : (a ++ b).toList = a.toList ++ b.toList := rfl
  rw [h]
  exact listContainsSub_append_left _ _

theorem containsSub_append_right (a b : String) : containsSub (a ++ b) b = true := by
  unfold containsSub
  have h : (a ++ b).toList = a.toList ++ b.toList := rfl
  rw [h]
  exact listContainsSub_append_right _ _

theorem adoGet_outcome_fail {α : Type} (url pat : String)
    (responses : Nat → HttpResponse α) (k : Nat) (hk : k < 3)
    (hretry : ∀ i, i < k → (responses i).statusCode = 429 ∨ 500 ≤ (responses i).statusCode)
    (h2 : ¬(200 ≤ (responses k).statusCode ∧ (responses k).statusCode < 300))
    (hr : ¬((responses k).statusCode = 429 ∨ 500 ≤ (responses k).statusCode)) :
    (adoGet url pat responses).outcome
      = .error (toString (responses k).statusCode ++ " GET " ++ url) := by
  have not2xx : ∀ i, ((responses i).statusCode = 429 ∨ 500 ≤ (responses i).statusCode) →
      ¬(200 ≤ (responses i).statusCode ∧ (responses i).statusCode < 300) := by
    intro i hi
    rcases hi with hi | hi <;> omega
  interval_cases k
  · show (adoGetLoop url pat responses [0, 1, 2]).outcome = _
    rw [adoGetLoop_cons_fail url pat responses 0 _ h2 hr]
  · have h0 := hretry 0 (by omega)
    show (adoGetLoop url pat responses [0, 1, 2]).outcome = _
    rw [adoGetLoop_cons_retry url pat responses 0 _ (not2xx 0 h0) h0]
    show (adoGetLoop url pat responses [1, 2]).outcome = _
    rw [adoGetLoop_cons_fail url pat responses 1 _ h2 hr]
  · have h0 := hretry 0 (by omega)
    have h1 := hretry 1 (by omega)
    show (adoGetLoop url pat responses [0, 1, 2]).outcome = _
    rw [adoGetLoop_cons_retry url pat responses 0 _ (not2xx 0 h0) h0]
    show (adoGetLoop url pat responses [1, 2]).outcome = _
    rw [adoGetLoop_cons_retry url pat responses 1 _ (not2xx 1 h1) h1]
    show (adoGetLoop url pat responses [2]).outcome = _
    rw [adoGetLoop_cons_fail url pat responses 2 _ h2 hr]

theorem adoGet_outcome_exhausted {α : Type} (url pat : String)
    (responses : Nat → HttpResponse α)
    (hretry : ∀ i, i < 3 → (responses i).statusCode = 429 ∨ 500 ≤ (responses i).statusCode) :
    (adoGet url pat responses).outcome = .error ("Retries exceeded: GET " ++ url) := by
  have not2xx : ∀ i, ((responses i).statusCode = 429 ∨ 500 ≤ (responses i).statusCode) →
      ¬(200 ≤ (responses i).statusCode ∧ (responses i).statusCode < 300) := by
    intro i hi
    rcases hi with hi | hi <;> omega
  have h0 := hretry 0 (by omega)
  have h1 := hretry 1 (by omega)
  have h2 := hretry 2 (by omega)
  show (adoGetLoop url pat responses [0, 1, 2]).outcome = _
  rw [adoGetLoop_cons_retry url pat responses 0 _ (not2xx 0 h0) h0]
  show (adoGetLoop url pat responses [1, 2]).outcome = _
  rw [adoGetLoop_cons_retry url pat responses 1 _ (not2xx 1 h1) h1]
  show (adoGetLoop url pat responses [2]).outcome = _
  rw [adoGetLoop_cons_retry url pat responses 2 _ (not2xx 2 h2) h2]
  rfl

/-- **C3 counterexample**: when every attempt answers 500, `adoGet`
throws `Retries exceeded: GET u`, whose message does not contain the
status code `500` — so the error thrown when GET retries are exhausted
does not carry the response's status code. -/
theorem get_exhausted_error_lacks_status :
    (adoGet "u" "p" (fun _ => ⟨500, (0 : Nat)⟩)).outcome
        = .error "Retries exceeded: GET u" ∧
    containsSub "Retries exceeded: GET u" "500" = false := by
  constructor
  · rfl
  · rfl

/-- **C3 (amended)**: every error thrown *immediately* for a
non-retryable non-2xx response — by GET, POST and PATCH alike — carries
both the response's status code and the request URL in its message; the
error thrown when GET retries on 429/5xx are exhausted is the fixed
message `Retries exceeded: GET <url>`, which carries the request URL but
not the status code. -/
theorem http_error_message_contents {α : Type} (url pat : String) :
    (∀ (responses : Nat → HttpResponse α) (k : Nat), k < 3 →
      (∀ i, i < k → (responses i).statusCode = 429 ∨ 500 ≤ (responses i).statusCode) →
      ¬(200 ≤ (responses k).statusCode ∧ (responses k).statusCode < 300) →
      ¬((responses k).statusCode = 429 ∨ 500 ≤ (responses k).statusCode) →
      ∃ m, (adoGet url pat responses).outcome = .error m ∧
        containsSub m (toString (responses k).statusCode) = true ∧
        containsSub m url = true) ∧
    (∀ (b : Body) (ct : String) (res : HttpResponse α),
      res.statusCode < 200 ∨ 300 ≤ res.statusCode →
      ∃ m, (adoPost url pat b ct res).outcome = .error m ∧
        containsSub m (toString res.statusCode) = true ∧
        containsSub m url = true) ∧
    (∀ (b : Body) (ct : String) (res : HttpResponse α),
      res.statusCode < 200 ∨ 300 ≤ res.statusCode →
      ∃ m, (adoPatch url pat b ct res).outcome = .error m ∧
        containsSub m (toString res.statusCode) = true ∧
        containsSub m url = true) ∧
    (∀ (responses : Nat → HttpResponse α),
      (∀ i, i < 3 → (responses i).statusCode = 429 ∨ 500 ≤ (responses i).statusCode) →
      (adoGet url pat responses).outcome = .error ("Retries exceeded: GET " ++ url) ∧
      containsSub ("Retries exceeded: GET " ++ url) url = true) := by
  refine ⟨?_, ?_, ?_, ?_⟩
  · intro responses k hk hretry h2 hr
    refine ⟨toString (responses k).statusCode ++ " GET " ++ url,
      adoGet_outcome_fail url pat responses k hk hretry h2 hr, ?_, ?_⟩
    · rw [String.append_assoc]
      exact containsSub_append_left _ _
    · exact containsSub_append_right _ _
  · intro b ct res h
    refine ⟨toString res.statusCode ++ " POST " ++ url, ?_, ?_, ?_⟩
    · simp [adoPost, h]
    · rw [String.append_assoc]
      exact containsSub_append_left _ _
    · exact containsSub_append_right _ _
  · intro b ct res h
    refine ⟨toString res.statusCode ++ " PATCH " ++ url, ?_, ?_, ?_⟩
    · simp [adoPatch, h]
    · rw [String.append_assoc]
      exact containsSub_append_left _ _
    · exact containsSub_append_right _ _
  · intro responses hretry
    exact ⟨adoGet_outcome_exhausted url pat responses hretry,
      containsSub_append_right _ _⟩

/-- Witness for `http_error_message_contents`: a POST answered 404 throws
`404 POST u`, which contains both `404` and the URL `u`. -/
theorem http_error_message_contents_witness :
    ∃ m, (adoPost "u" "p" (.comment "hi") "application/json"
        (⟨404, (0 : Nat)⟩ : HttpResponse Nat)).outcome = .error m ∧
      containsSub m (toString (404 : Nat)) = true ∧
      containsSub m "u" = true :=
  (http_error_message_contents "u" "p").2.1 (.comment "hi") "application/json"
    ⟨404, (0 : Nat)⟩ (by right; show (300 : Nat) ≤ 404; omega)

/-- **C4**: at the tool-dispatch boundary, every error escaping a tool
execution is reported to the caller as a generic internal-error
(`ErrorCode.InternalError`) result, except zod argument-validation
failures, which become a distinct invalid-parameters
(`ErrorCode.InvalidParams`) error whose message lists the offending
fields (`<path>: <message>`, comma-separated). -/
theorem tool_dispatch_error_boundary (name : String)
    (exec : Except ThrownError String) (e : ThrownError)
    (he : tryBody name exec = .error e) :
    match e with
    | .zod issues => handleCall name exec
        = .error ⟨ErrorCode.InvalidParams, "Invalid arguments: " ++ renderIssues issues⟩
    | _ => ∃ m, handleCall name exec = .error ⟨ErrorCode.InternalError, m⟩ := by
  cases e with
  | zod issues =>
    show handleCall name exec = _
    unfold handleCall
    rw [he]
    rfl
  | err m =>
    refine ⟨"Tool execution failed: " ++ errorToString (.err m), ?_⟩
    unfold handleCall
    rw [he]
    rfl
  | mcp c m =>
    refine ⟨"Tool execution failed: " ++ errorToString (.mcp c m), ?_⟩
    unfold handleCall
    rw [he]
    rfl

/-- Witness for `tool_dispatch_error_boundary`: a zod failure on
`work_item_get`'s `id` field is reported as `InvalidParams` naming the
field. -/
theorem tool_dispatch_error_boundary_witness :
    handleCall "work_item_get" (.error (.zod [⟨["id"], "Required"⟩]))
      = .error ⟨ErrorCode.InvalidParams, "Invalid arguments: id: Required"⟩ := by
  have h := tool_dispatch_error_boundary "work_item_get"
    (.error (.zod [⟨["id"], "Required"⟩])) (.zod [⟨["id"], "Required"⟩]) rfl
  exact h

/-! ## Authentication -/

/-- HTTP Basic authentication header for a username/password pair, as
the spec words it: `"Basic "` followed by the base64 encoding of
`user:password`. -/
def basicAuthHeader (user password : String) : String :=
  "Basic " ++ base64Encode (strBytes (user ++ ":" ++ password))

theorem adoGetLoop_auth {α : Type} (url pat : String)
    (responses : Nat → HttpResponse α) (l : List Nat) (r : HttpRequest)
    (hr : r ∈ (adoGetLoop url pat responses l).requests) :
    r.authorization = authHeader pat := by
  induction l with
  | nil => simp [adoGetLoop] at hr
  | cons i rest ih =>
    simp only [adoGetLoop] at hr
    split_ifs at hr with h1 h2
    · simp at hr
      subst hr
      rfl
    · simp at hr
      rcases hr with hr | hr
      · subst hr
        rfl
      · exact ih hr
    · simp at hr
      subst hr
      rfl

/-- **C5**: every HTTP request issued by the client — on any `adoGet`
attempt and on every `adoPost` / `adoPatch` — carries the Authorization
header `authHeader pat`, and that header is exactly HTTP Basic
authentication with an empty username and the PAT as the password:
`"Basic " + base64(":" + pat)`. -/
theorem every_request_uses_basic_auth {α : Type} (pat : String) :
    (∀ (url : String) (responses : Nat → HttpResponse α) (r : HttpRequest),
      r ∈ (adoGet url pat responses).requests → r.authorization = authHeader pat) ∧
    (∀ (url : String) (b : Body) (ct : String) (res : HttpResponse α) (r : HttpRequest),
      r ∈ (adoPost url pat b ct res).requests → r.authorization = authHeader pat) ∧
    (∀ (url : String) (b : Body) (ct : String) (res : HttpResponse α) (r : HttpRequest),
      r ∈ (adoPatch url pat b ct res).requests → r.authorization = authHeader pat) ∧
    authHeader pat = basicAuthHeader "" pat := by
  refine ⟨?_, ?_, ?_, rfl⟩
  · intro url responses r hr
    exact adoGetLoop_auth url pat responses (List.range 3) r hr
  · intro url b ct res r hr
    unfold adoPost at hr
    split_ifs at hr <;> (simp at hr; subst hr; rfl)
  · intro url b ct res r hr
    unfold adoPatch at hr
    split_ifs at hr <;> (simp at hr; subst hr; rfl)

/-- Witness for `every_request_uses_basic_auth`: the one request of a
successful concrete GET carries the Basic header. -/
theorem every_request_uses_basic_auth_witness :
    (getRequest "u" "p").authorization = authHeader "p" :=
  (every_request_uses_basic_auth (α := Nat) "p").1 "u" (fun _ => ⟨200, 0⟩)
    (getRequest "u" "p") (by simp [adoGet, adoGetLoop, getRequest])

/-- **C6**: every one of the 13 tools issues exactly one REST call —
one endpoint — per invocation with (valid, parsed) arguments;
`work_item_create`, `work_item_update` and `board_move` first construct a
JSON-patch document that becomes the body of that single call. -/
theorem tool_single_rest_call (o : ADOOpts) (tc : ToolCall) :
    ∃ c : RestCall, dispatchCalls o tc = [c] ∧
      (match tc with
       | .work_item_create _ title d ip ap =>
           c.body = some (.patch (createOps title d ip ap))
       | .work_item_update _ st ip fs =>
           c.body = some (.patch (updateOps st ip fs))
       | .board_move _ st ip =>
           c.body = some (.patch (boardMoveOps st ip))
       | _ => True) := by
  cases tc <;> exact ⟨_, rfl, by first | rfl | trivial⟩

/-- **C8**: the JSON-patch document of `work_item_create` starts with the
`add` of `/fields/System.Title`; it contains an `add` for
`/fields/System.Description`, `/fields/System.IterationPath` and
`/fields/System.AreaPath` iff the corresponding optional argument is
provided and non-empty; and every operation in it is an `add` to one of
these four paths. -/
theorem work_item_create_ops_spec (title : String) (d ip ap : Option String) :
    (∃ rest, createOps title d ip ap = ⟨"add", "/fields/System.Title", title⟩ :: rest) ∧
    ((∃ v, (⟨"add", "/fields/System.Description", v⟩ : PatchOp)
        ∈ createOps title d ip ap) ↔ truthyStr d = true) ∧
    ((∃ v, (⟨"add", "/fields/System.IterationPath", v⟩ : PatchOp)
        ∈ createOps title d ip ap) ↔ truthyStr ip = true) ∧
    ((∃ v, (⟨"add", "/fields/System.AreaPath", v⟩ : PatchOp)
        ∈ createOps title d ip ap) ↔ truthyStr ap = true) ∧
    (∀ p ∈ createOps title d ip ap, p.op = "add" ∧
      p.path ∈ ["/fields/System.Title", "/fields/System.Description",
                "/fields/System.IterationPath", "/fields/System.AreaPath"]) := by
  cases hd : truthyStr d <;> cases hip : truthyStr ip <;> cases hap : truthyStr ap <;>
    refine ⟨⟨_, rfl⟩, ?_, ?_, ?_, ?_⟩ <;>
    simp [createOps, hd, hip, hap, PatchOp.mk.injEq]

/-- Witness for `work_item_create_ops_spec`: with a description given and
an empty (falsy) area path, the document has a Description operation and
no AreaPath operation. -/
theorem work_item_create_ops_spec_witness :
    (∃ v, (⟨"add", "/fields/System.Description", v⟩ : PatchOp)
        ∈ createOps "T" (some "D") none (some "")) ∧
    ¬(∃ v, (⟨"add", "/fields/System.AreaPath", v⟩ : PatchOp)
        ∈ createOps "T" (some "D") none (some "")) := by
  have h := work_item_create_ops_spec "T" (some "D") none (some "")
  exact ⟨h.2.1.mpr (by decide), fun hv => absurd (h.2.2.2.1.mp hv) (by decide)⟩

/-- **C9**: `board_move (id, stateName, iterationPath)` issues exactly
the PATCH that `work_item_update (id, state := stateName, iterationPath,
no fields)` issues — same URL, same JSON-patch operations in the same
order — and with neither option provided the JSON-patch array is empty. -/
theorem board_move_refines_update (o : ADOOpts) (id : Nat)
    (stateName iterationPath : Option String) :
    dispatchCalls o (.board_move id stateName iterationPath)
      = dispatchCalls o (.work_item_update id stateName iterationPath none) ∧
    dispatchCalls o (.board_move id none none)
      = [⟨.PATCH, orgBase o ++ "/_apis/wit/workitems/" ++ toString id ++ "?api-version=6.0",
          some (.patch []), some "application/json-patch+json"⟩] := by
  constructor
  · simp [dispatchCalls, updateWorkItem, boardMoveOps, updateOps]
  · rfl

/-- **C10**: invoking an unknown tool name yields an internal-error
result, never a method-not-found one: the `MethodNotFound` `McpError`
thrown by the `default` branch lies inside the `try`, so the catch-all
re-wraps it as an `InternalError` whose message contains the unknown tool
name. -/
theorem unknown_tool_internal_error (name : String) (hname : name ∉ knownTools)
    (exec : Except ThrownError String) :
    handleCall name exec
      = .error ⟨ErrorCode.InternalError,
          "Tool execution failed: McpError: MCP error -32601: Unknown tool: " ++ name⟩ ∧
    ErrorCode.InternalError ≠ ErrorCode.MethodNotFound ∧
    containsSub ("Tool execution failed: McpError: MCP error -32601: Unknown tool: " ++ name)
      name = true := by
  refine ⟨?_, by decide, containsSub_append_right _ _⟩
  unfold handleCall tryBody
  rw [if_neg hname]
  rfl

/-- Witness for `unknown_tool_internal_error`: the unknown name
`frobnicate` is reported as an `InternalError` mentioning it. -/
theorem unknown_tool_internal_error_witness :
    handleCall "frobnicate" (.ok "unused")
      = .error ⟨ErrorCode.InternalError,
          "Tool execution failed: McpError: MCP error -32601: Unknown tool: frobnicate"⟩ := by
  have h := unknown_tool_internal_error "frobnicate" (by decide) (.ok "unused")
  exact h.1

/-- **C7**: the `listBuilds` URL is `<orgBase>/_apis/build/builds?` plus
the serialized query, whose parameters are exactly `api-version=6.0`
first, then `$top`, `branchName`, `definitions` (the IDs joined with
commas) and `continuationToken`, each present iff the corresponding
option is truthy (for `definitions`: present and non-empty); the
organization and project names in the URL path are percent-encoded. -/
theorem listBuilds_url_spec (o : ADOOpts) (opts : ListBuildsOpts) :
    (listBuilds o opts).url
      = orgBase o ++ "/_apis/build/builds?" ++ serializeQuery (buildsQuery opts) ∧
    (o.project = none → orgBase o = "https://" ++ encodeURIComponent o.org
        ++ ".visualstudio.com") ∧
    (o.project = some "" → orgBase o = "https://" ++ encodeURIComponent o.org
        ++ ".visualstudio.com") ∧
    (∀ p, o.project = some p → p ≠ "" →
      orgBase o = "https://" ++ encodeURIComponent o.org ++ ".visualstudio.com"
        ++ "/" ++ encodeURIComponent p) ∧
    ("api-version", "6.0") ∈ buildsQuery opts ∧
    (buildsQuery opts).map Prod.fst
      = ["api-version"]
        ++ (if truthyNat opts.top then ["$top"] else [])
        ++ (if truthyStr opts.branchName then ["branchName"] else [])
        ++ (if truthyListNat opts.definitions then ["definitions"] else [])
        ++ (if truthyStr opts.continuationToken then ["continuationToken"] else []) ∧
    (∀ ds, opts.definitions = some ds → ds ≠ [] →
      ("definitions", String.intercalate "," (ds.map toString)) ∈ buildsQuery opts) := by
  refine ⟨rfl, ?_, ?_, ?_, ?_, ?_, ?_⟩
  · intro h
    exact orgBase_none o h
  · intro h
    exact orgBase_empty o h
  · intro p hp hpe
    exact orgBase_some o p hp hpe
  · simp [buildsQuery]
  · cases h1 : truthyNat opts.top <;> cases h2 : truthyStr opts.branchName <;>
      cases h3 : truthyListNat opts.definitions <;>
      cases h4 : truthyStr opts.continuationToken <;>
      simp [buildsQuery, h1, h2, h3, h4]
  · intro ds hds hne
    have ht : truthyListNat (some ds) = true := by
      simp [truthyListNat]
      exact hne
    simp [buildsQuery, hds, ht]

/-- Witness for `listBuilds_url_spec`: a concrete call with a project
name containing a space and two definition IDs. -/
theorem listBuilds_url_spec_witness :
    orgBase ⟨"o", some "Team A", "p"⟩ = "https://" ++ encodeURIComponent "o"
        ++ ".visualstudio.com" ++ "/" ++ encodeURIComponent "Team A" ∧
    ("definitions", String.intercalate "," (([1, 2] : List Nat).map toString))
      ∈ buildsQuery ⟨some [1, 2], none, some 5, none⟩ := by
  have h := listBuilds_url_spec ⟨"o", some "Team A", "p"⟩ ⟨some [1, 2], none, some 5, none⟩
  exact ⟨h.2.2.2.1 "Team A" rfl (by decide), h.2.2.2.2.2.2 [1, 2] rfl (by decide)⟩
